import Mathlib

/-
Verification of the sleeper-mcp server (src/server.ts).

The development shallowly embeds the data layer of the server:
 - JavaScript object / Map semantics as association lists
   (assignment overwrites in place, otherwise appends; lookup by key),
 - the player directory built from the bulk snapshot (lines 94-120),
 - the get_player_id / get_player_name handlers (lines 181-250),
 - the callApi client (lines 122-141),
 - the get_matchup_scoreboard aggregator (lines 405-515),
 - the lru-cache response cache, modelled from the spec because the
   library implementation is not part of this repository.

Conventions: machine numbers that are only copied around (points, week)
are Int; matchup_id and roster_id are Nat (the server only ever receives
non-negative integer ids, and object keys built from them are JavaScript
array-index keys, which Object.keys enumerates in ascending numeric
order); a JSON object is a List of key-value pairs in its JavaScript
enumeration order, so "iteration order" below is the order of the list.
-/

--------------------------------------------------------------------------------
-- JavaScript object / Map semantics
--------------------------------------------------------------------------------

/-- Lookup of a key in a JavaScript object or Map (first matching pair;
objects built by objSet keep keys unique). -/
def objGet {κ α : Type} [DecidableEq κ] : List (κ × α) → κ → Option α
  | [], _ => none
  | p :: rest, k => if p.1 = k then some p.2 else objGet rest k

/-- Assignment m[k] = v (or Map.set): overwrite in place when the key is
present, otherwise append at the end, as JavaScript does. -/
def objSet {κ α : Type} [DecidableEq κ] : List (κ × α) → κ → α → List (κ × α)
  | [], k, v => [(k, v)]
  | p :: rest, k, v => if p.1 = k then (k, v) :: rest else p :: objSet rest k v

/-- Object.fromEntries: build an object by assigning each pair in order,
so a later pair with a duplicate key overwrites the earlier value. -/
def fromEntries {α : Type} (l : List (String × α)) : List (String × α) :=
  l.foldl (fun m kv => objSet m kv.1 kv.2) []

/-- Last element of the list whose key-projection equals k, if any; the
value that survives a sequence of last-write-wins assignments. -/
def lastWith {β κ : Type} [DecidableEq κ] (key : β → κ) (k : κ) : List β → Option β
  | [] => none
  | x :: rest =>
    match lastWith key k rest with
    | some y => some y
    | none => if key x = k then some x else none

/-- Keys of an association-list object, in storage order. -/
def keysOf {κ α : Type} (g : List (κ × α)) : List κ :=
  g.map Prod.fst

/-- Append a list to an optional list, where appending nothing to an
absent value leaves it absent. Describes how a group under a key grows. -/
def optAppend {α : Type} (o : Option (List α)) (l : List α) : Option (List α) :=
  match o, l with
  | none, [] => none
  | o, l => some (o.getD [] ++ l)

--------------------------------------------------------------------------------
-- Player directory (server.ts lines 28-32, 94-120)
--------------------------------------------------------------------------------

/-- type Player (server.ts lines 28-32). -/
structure Player where
  status : String
  full_name : String
  team : String
deriving DecidableEq

/-- Build loop for playerNameToId (server.ts lines 114-117): for each
snapshot pair (key, playerData), playerNameToId.set(playerData.full_name, key). -/
def buildNameToId (snap : List (String × Player)) : List (String × String) :=
  snap.foldl (fun m kp => objSet m kp.2.full_name kp.1) []

/-- Build loop for playerIdToName (server.ts lines 114-117): for each
snapshot pair (key, playerData), playerIdToName.set(key, playerData.full_name). -/
def buildIdToName (snap : List (String × Player)) : List (String × String) :=
  snap.foldl (fun m kp => objSet m kp.1 kp.2.full_name) []

/-- get_player_id handler (server.ts lines 194-214):
const id = playerNameToId.get(name); if (!id) throw new Error(...); the
empty string is falsy, so it is rejected like a missing entry. -/
def get_player_id (snap : List (String × Player)) (name : String) : Except String String :=
  match objGet (buildNameToId snap) name with
  | some id => if id = "" then .error ("Could not find player " ++ name) else .ok id
  | none => .error ("Could not find player " ++ name)

/-- get_player_name handler (server.ts lines 229-249):
const name = playerIdToName.get(id); if (!name) throw new Error(...). -/
def get_player_name (snap : List (String × Player)) (id : String) : Except String String :=
  match objGet (buildIdToName snap) id with
  | some name =>
    if name = "" then .error ("Could not find player with id " ++ id) else .ok name
  | none => .error ("Could not find player with id " ++ id)

--------------------------------------------------------------------------------
-- Upstream record shapes (server.ts lines 34-88)
--------------------------------------------------------------------------------

/-- metadata field of type User (server.ts lines 38-40). -/
structure UserMetadata where
  team_name : String
deriving DecidableEq

/-- type User (server.ts lines 34-41). -/
structure User where
  user_id : String
  username : String
  display_name : String
  metadata : UserMetadata
deriving DecidableEq

/-- type Roster (server.ts lines 43-62); the settings, reserve and
league_id fields are not read by any modelled operation and are omitted. -/
structure Roster where
  roster_id : Nat
  owner_id : String
  players : List String
  starters : List String
deriving DecidableEq

/-- type MatchupEntry (server.ts lines 64-71); players_points is the
upstream per-player point object, listed in its enumeration order. -/
structure MatchupEntry where
  roster_id : Nat
  starters : List String
  players : List String
  points : Int
  players_points : List (String × Int)
  matchup_id : Nat
deriving DecidableEq

/-- type ScoreBoardEntry (server.ts lines 79-88). -/
structure ScoreBoardEntry where
  user_name : String
  team_name : String
  starters : List String
  players : List String
  total_points : Int
  players_points : List (String × Int)
  starters_points : List (String × Int)
  matchup_id : Nat
deriving DecidableEq

/-- type Matchup (server.ts lines 73-77). -/
structure Matchup where
  matchup_id : Nat
  week : Int
  entries : List ScoreBoardEntry
deriving DecidableEq

--------------------------------------------------------------------------------
-- get_matchup_scoreboard aggregation (server.ts lines 440-513)
--------------------------------------------------------------------------------

/-- usersById build loop (server.ts lines 444-447). -/
def usersById (users : List User) : List (String × User) :=
  users.foldl (fun m u => objSet m u.user_id u) []

/-- rostersById build loop (server.ts lines 452-455). -/
def rostersById (rosters : List Roster) : List (Nat × Roster) :=
  rosters.foldl (fun m r => objSet m r.roster_id r) []

/-- playerIdToName.get(id) || id (server.ts lines 474-486): resolve a
player id to its display name, falling back to the raw id when the id is
unknown, or when the stored name is the empty string (falsy). -/
def resolveOr (idToName : List (String × String)) (id : String) : String :=
  match objGet idToName id with
  | some n => if n = "" then id else n
  | none => id

/-- Construction of one ScoreBoardEntry from one matchup entry
(server.ts lines 469-489). roster?.owner_id || \x22\x22 collapses to the plain
owner_id when the roster exists (the default is itself the empty string),
as do user?.display_name || \x22\x22 and user?.metadata.team_name || \x22\x22. -/
def mkScoreBoardEntry (idToName : List (String × String)) (uById : List (String × User))
    (rById : List (Nat × Roster)) (e : MatchupEntry) : ScoreBoardEntry :=
  let roster := objGet rById e.roster_id
  let user := objGet uById (match roster with | some r => r.owner_id | none => "")
  { user_name := match user with | some u => u.display_name | none => ""
    team_name := match user with | some u => u.metadata.team_name | none => ""
    starters := e.starters.map (resolveOr idToName)
    players := e.players.map (resolveOr idToName)
    total_points := e.points
    players_points :=
      fromEntries (e.players_points.map (fun kv => (resolveOr idToName kv.1, kv.2)))
    starters_points :=
      fromEntries ((e.players_points.filter (fun kv => e.starters.contains kv.1)).map
        (fun kv => (resolveOr idToName kv.1, kv.2)))
    matchup_id := e.matchup_id }

/-- grouped[e.matchup_id] creation-or-push (server.ts lines 463-492):
push onto the existing group, or create a fresh singleton group. -/
def groupInsert : List (Nat × List ScoreBoardEntry) → Nat → ScoreBoardEntry →
    List (Nat × List ScoreBoardEntry)
  | [], k, s => [(k, [s])]
  | p :: rest, k, s =>
    if p.1 = k then (p.1, p.2 ++ [s]) :: rest else p :: groupInsert rest k s

/-- The grouping loop over the matchup response (server.ts lines 462-492),
starting from an accumulator g (the server starts from the empty object). -/
def buildGrouped (idToName : List (String × String)) (uById : List (String × User))
    (rById : List (Nat × Roster)) :
    List (Nat × List ScoreBoardEntry) → List MatchupEntry → List (Nat × List ScoreBoardEntry)
  | g, [] => g
  | g, e :: es =>
    buildGrouped idToName uById rById
      (groupInsert g e.matchup_id (mkScoreBoardEntry idToName uById rById e)) es

/-- The entries that end up grouped under matchup id k: the score-board
entries of the input entries carrying that id, in upstream order. -/
def groupContent (idToName : List (String × String)) (uById : List (String × User))
    (rById : List (Nat × Roster)) (es : List MatchupEntry) (k : Nat) : List ScoreBoardEntry :=
  (es.filter (fun e => e.matchup_id = k)).map (mkScoreBoardEntry idToName uById rById)

/-- The whole aggregation of get_matchup_scoreboard (server.ts lines
440-513) after the three fetches: index users and rosters, group the
matchup entries, then emit one Matchup per key of the grouped object.
Object.keys on an object whose keys are array-index numerals enumerates
them in ascending numeric order, and parseInt(k, 10) restores the Nat. -/
def buildScoreboard (idToName : List (String × String)) (users : List User)
    (rosters : List Roster) (es : List MatchupEntry) (week : Int) : List Matchup :=
  let grouped := buildGrouped idToName (usersById users) (rostersById rosters) [] es
  (List.insertionSort (fun a b => a ≤ b) (keysOf grouped)).map
    (fun k => { matchup_id := k, week := week, entries := (objGet grouped k).getD [] })

--------------------------------------------------------------------------------
-- callApi and the fetch pipeline (server.ts lines 8-16, 122-141, 440-459)
--------------------------------------------------------------------------------

/-- interface CacheEntry (server.ts lines 8-11). -/
structure CacheEntry (α : Type) where
  data : α
  timestamp : Nat
deriving DecidableEq

/-- The observable part of a fetch Response: ok, status, statusText and
the JSON-parsed body. -/
structure HttpResp (α : Type) where
  ok : Bool
  status : Nat
  statusText : String
  body : α
deriving DecidableEq

/-- Error message thrown by callApi on a non-2xx response (server.ts
lines 131-135). -/
def httpErrMsg (status : Nat) (statusText : String) : String :=
  "Failed to fetch data. HTTP status: " ++ toString status ++ " " ++ statusText

/-- callApi (server.ts lines 122-141) for one URL: cached holds the
result of cache.get(url); resp is the fetch response on a miss; the
second component of the result is the CacheEntry written by cache.set
(nothing is written on a hit). -/
def callApi {α : Type} (cached : Option (CacheEntry α)) (resp : HttpResp α) (now : Nat) :
    Except String (α × Option (CacheEntry α)) :=
  match cached with
  | some c => .ok (c.data, none)
  | none =>
    if resp.ok then .ok (resp.body, some { data := resp.body, timestamp := now })
    else .error (httpErrMsg resp.status resp.statusText)

/-- get_matchup_scoreboard handler (server.ts lines 440-513): three
sequential callApi fetches (users, rosters, matchups); a thrown error
aborts the handler, so the aggregation runs only when all three succeed. -/
def get_matchup_scoreboard (idToName : List (String × String))
    (cachedUsers : Option (CacheEntry (List User))) (respUsers : HttpResp (List User))
    (cachedRosters : Option (CacheEntry (List Roster))) (respRosters : HttpResp (List Roster))
    (cachedMatchups : Option (CacheEntry (List MatchupEntry)))
    (respMatchups : HttpResp (List MatchupEntry))
    (week : Int) (now : Nat) : Except String (List Matchup) := do
  let users ← callApi cachedUsers respUsers now
  let rosters ← callApi cachedRosters respRosters now
  let entries ← callApi cachedMatchups respMatchups now
  pure (buildScoreboard idToName users.1 rosters.1 entries.1 week)

/-- The request timeout configured by callApi's fetch call (server.ts
line 129): fetch(url) is invoked with no RequestInit at all, so no
timeout or AbortSignal is configured; some t would model a t-millisecond
bound. -/
def callApiRequestTimeoutMs : Option Nat :=
  none

/-- Whether a fetch configured with the given timeout is still waiting
for (rather than having aborted) a response that arrives `arrival`
milliseconds after the request was issued. -/
def fetchWaits (timeoutMs : Option Nat) (arrival : Nat) : Bool :=
  match timeoutMs with
  | some t => arrival ≤ t
  | none => true

--------------------------------------------------------------------------------
-- Response cache. Modelled from the spec: the cache is the lru-cache
-- library (server.ts lines 13-16 only configure it with max 1000 and a
-- 30-second ttl); the library implementation is not part of this
-- repository, so get/set follow the spec's ResponseCache contract:
-- a get hits only while now - insertedAt < ttl (a stale entry is
-- removed), a hit refreshes recency, and a set beyond capacity evicts
-- the least-recently-used entry first. The state lists entries from
-- least recently used to most recently used.
--------------------------------------------------------------------------------

/-- One live cache slot: key, stored value, insertion time (ms). -/
structure LruEntry (α : Type) where
  key : String
  data : α
  insertedAt : Nat
deriving DecidableEq

/-- Modelled from the spec: ResponseCache get. A hit returns the stored
value only if now - insertedAt < ttl and moves the entry to the
most-recently-used position; a stale entry behaves as a miss and is
removed. -/
def lruGet {α : Type} (ttl : Nat) (st : List (LruEntry α)) (k : String) (now : Nat) :
    Option α × List (LruEntry α) :=
  match st.find? (fun e => e.key = k) with
  | none => (none, st)
  | some e =>
    if now - e.insertedAt < ttl then
      (some e.data, st.filter (fun x => x.key ≠ k) ++ [e])
    else
      (none, st.filter (fun x => x.key ≠ k))

/-- Modelled from the spec: ResponseCache set. Overwrite any entry with
the same key, evict from the least-recently-used end whatever is needed
to leave room, then insert the new entry as most recently used. -/
def lruSet {α : Type} (max : Nat) (st : List (LruEntry α)) (k : String) (v : α)
    (now : Nat) : List (LruEntry α) :=
  let removed := st.filter (fun x => x.key ≠ k)
  removed.drop (removed.length + 1 - max) ++ [{ key := k, data := v, insertedAt := now }]

/-- One client-visible cache operation. -/
inductive LruOp (α : Type) where
  | get (k : String) (now : Nat)
  | set (k : String) (v : α) (now : Nat)

/-- Apply one operation to the cache state. -/
def lruStep {α : Type} (max ttl : Nat) (st : List (LruEntry α)) : LruOp α → List (LruEntry α)
  | .get k now => (lruGet ttl st k now).2
  | .set k v now => lruSet max st k v now

/-- Run a sequence of cache operations from the empty cache. -/
def runOps {α : Type} (max ttl : Nat) (ops : List (LruOp α)) : List (LruEntry α) :=
  ops.foldl (lruStep max ttl) []

--------------------------------------------------------------------------------
-- Lemmas about the JavaScript object model
--------------------------------------------------------------------------------

theorem objGet_objSet {κ α : Type} [DecidableEq κ] (m : List (κ × α)) (k a : κ) (v : α) :
    objGet (objSet m k v) a = if a = k then some v else objGet m a := by
  induction m with
  | nil =>
    by_cases h : a = k
    · subst h; simp [objSet, objGet]
    · simp [objSet, objGet, h, Ne.symm h]
  | cons p rest ih =>
    by_cases hp : p.1 = k
    · by_cases h : a = k
      · subst h; simp [objSet, objGet, hp]
      · simp [objSet, objGet, hp, h, Ne.symm h]
    · by_cases hpa : p.1 = a
      · have hak : a ≠ k := fun hh => hp (hpa.trans hh)
        simp [objSet, objGet, hp, hpa, hak]
      · simp [objSet, objGet, hp, hpa, ih]

theorem lastWith_eq_none {β κ : Type} [DecidableEq κ] (key : β → κ) (k : κ) (l : List β)
    (h : ∀ x ∈ l, key x ≠ k) : lastWith key k l = none := by
  induction l with
  | nil => rfl
  | cons x rest ih =>
    have hx := h x (by simp)
    have hrest := ih (fun y hy => h y (by simp [hy]))
    simp [lastWith, hrest, hx]

theorem lastWith_mem {β κ : Type} [DecidableEq κ] (key : β → κ) (k : κ) (l : List β) (y : β)
    (h : lastWith key k l = some y) : y ∈ l ∧ key y = k := by
  induction l with
  | nil => simp [lastWith] at h
  | cons x rest ih =>
    simp only [lastWith] at h
    cases hr : lastWith key k rest with
    | some z =>
      rw [hr] at h
      simp only [Option.some.injEq] at h
      subst h
      exact ⟨List.mem_cons_of_mem _ (ih hr).1, (ih hr).2⟩
    | none =>
      rw [hr] at h
      by_cases hx : key x = k
      · rw [if_pos hx, Option.some.injEq] at h
        subst h
        exact ⟨List.mem_cons_self _ _, hx⟩
      · simp [hx] at h

theorem lastWith_unique {β κ : Type} [DecidableEq κ] (key : β → κ) (k : κ) (l : List β) (x : β)
    (hmem : x ∈ l) (hkey : key x = k) (huniq : ∀ y ∈ l, key y = k → y = x) :
    lastWith key k l = some x := by
  induction l with
  | nil => simp at hmem
  | cons z rest ih =>
    by_cases hxr : x ∈ rest
    · have hrest := ih hxr (fun y hy hk => huniq y (List.mem_cons_of_mem _ hy) hk)
      simp [lastWith, hrest]
    · have hxz : x = z := by
        rcases List.mem_cons.mp hmem with h | h
        · exact h
        · exact absurd h hxr
      subst hxz
      have hrest : lastWith key k rest = none := by
        refine lastWith_eq_none key k rest (fun y hy hk => ?_)
        exact hxr ((huniq y (List.mem_cons_of_mem _ hy) hk) ▸ hy)
      simp [lastWith, hrest, hkey]

theorem objGet_fold {β κ γ : Type} [DecidableEq κ] (key : β → κ) (val : β → γ)
    (l : List β) (m0 : List (κ × γ)) (k : κ) :
    objGet (l.foldl (fun m x => objSet m (key x) (val x)) m0) k =
      match lastWith key k l with
      | some x => some (val x)
      | none => objGet m0 k := by
  induction l generalizing m0 with
  | nil => rfl
  | cons x rest ih =>
    simp only [List.foldl_cons]
    rw [ih]
    cases hr : lastWith key k rest with
    | some y => simp [lastWith, hr]
    | none =>
      simp only [lastWith, hr]
      rw [objGet_objSet]
      by_cases h : key x = k
      · simp [h]
      · have h2 : ¬k = key x := fun hh => h hh.symm
        simp [h, h2]

theorem objGet_buildNameToId (snap : List (String × Player)) (name : String) :
    objGet (buildNameToId snap) name =
      (lastWith (fun kp => kp.2.full_name) name snap).map Prod.fst := by
  refine (objGet_fold (fun kp : String × Player => kp.2.full_name) Prod.fst snap [] name).trans ?_
  cases hl : lastWith (fun kp : String × Player => kp.2.full_name) name snap <;> simp [hl, objGet]

theorem objGet_buildIdToName (snap : List (String × Player)) (id : String) :
    objGet (buildIdToName snap) id =
      (lastWith Prod.fst id snap).map (fun kp => kp.2.full_name) := by
  refine (objGet_fold (Prod.fst : String × Player → String)
    (fun kp => kp.2.full_name) snap [] id).trans ?_
  cases hl : lastWith (Prod.fst : String × Player → String) id snap <;> simp [hl, objGet]

theorem objGet_usersById (users : List User) (k : String) :
    objGet (usersById users) k =
      (lastWith (fun u => u.user_id) k users).map (fun u => u) := by
  refine (objGet_fold (fun u : User => u.user_id) (fun u => u) users [] k).trans ?_
  cases hl : lastWith (fun u : User => u.user_id) k users <;> simp [hl, objGet]

theorem objGet_rostersById (rosters : List Roster) (k : Nat) :
    objGet (rostersById rosters) k =
      (lastWith (fun r => r.roster_id) k rosters).map (fun r => r) := by
  refine (objGet_fold (fun r : Roster => r.roster_id) (fun r => r) rosters [] k).trans ?_
  cases hl : lastWith (fun r : Roster => r.roster_id) k rosters <;> simp [hl, objGet]

theorem objGet_fromEntries {α : Type} (l : List (String × α)) (k : String) :
    objGet (fromEntries l) k = (lastWith Prod.fst k l).map Prod.snd := by
  refine (objGet_fold (Prod.fst : String × α → String) Prod.snd l [] k).trans ?_
  cases hl : lastWith (Prod.fst : String × α → String) k l <;> simp [hl, objGet]

--------------------------------------------------------------------------------
-- Lemmas about the grouping loop
--------------------------------------------------------------------------------

theorem objGet_groupInsert_self (g : List (Nat × List ScoreBoardEntry)) (k : Nat)
    (s : ScoreBoardEntry) :
    objGet (groupInsert g k s) k = some ((objGet g k).getD [] ++ [s]) := by
  induction g with
  | nil => simp [groupInsert, objGet]
  | cons p rest ih =>
    by_cases h : p.1 = k
    · simp [groupInsert, objGet, h]
    · simp [groupInsert, objGet, h, ih]

theorem objGet_groupInsert_ne (g : List (Nat × List ScoreBoardEntry)) (k k2 : Nat)
    (s : ScoreBoardEntry) (h : k ≠ k2) :
    objGet (groupInsert g k2 s) k = objGet g k := by
  induction g with
  | nil => simp [groupInsert, objGet, Ne.symm h]
  | cons p rest ih =>
    by_cases hp : p.1 = k2
    · simp [groupInsert, objGet, hp, Ne.symm h]
    · simp [groupInsert, objGet, hp, ih]

theorem optAppend_none_getD {α : Type} (l : List α) : (optAppend none l).getD [] = l := by
  cases l <;> simp [optAppend]

theorem objGet_buildGrouped (d : List (String × String)) (uById : List (String × User))
    (rById : List (Nat × Roster)) (es : List MatchupEntry)
    (g : List (Nat × List ScoreBoardEntry)) (k : Nat) :
    objGet (buildGrouped d uById rById g es) k =
      optAppend (objGet g k) (groupContent d uById rById es k) := by
  induction es generalizing g with
  | nil => cases h : objGet g k <;> simp [buildGrouped, groupContent, optAppend, h]
  | cons e rest ih =>
    simp only [buildGrouped]
    rw [ih]
    by_cases h : e.matchup_id = k
    · rw [h, objGet_groupInsert_self]
      cases hg : objGet g k <;>
        simp [optAppend, groupContent, List.filter_cons, h, hg]
    · rw [objGet_groupInsert_ne _ _ _ _ (fun hh => h hh.symm)]
      simp [groupContent, List.filter_cons, h]

theorem mem_keysOf_groupInsert (g : List (Nat × List ScoreBoardEntry)) (k a : Nat)
    (s : ScoreBoardEntry) :
    a ∈ keysOf (groupInsert g k s) ↔ a ∈ keysOf g ∨ a = k := by
  induction g with
  | nil => simp [groupInsert, keysOf]
  | cons p rest ih =>
    by_cases h : p.1 = k
    · simp [groupInsert, keysOf, h]
      tauto
    · simp only [groupInsert, if_neg h, keysOf, List.map_cons, List.mem_cons] at *
      tauto

theorem nodup_keysOf_groupInsert (g : List (Nat × List ScoreBoardEntry)) (k : Nat)
    (s : ScoreBoardEntry) (hnd : (keysOf g).Nodup) :
    (keysOf (groupInsert g k s)).Nodup := by
  induction g with
  | nil => simp [groupInsert, keysOf]
  | cons p rest ih =>
    simp only [keysOf, List.map_cons, List.nodup_cons] at hnd
    by_cases h : p.1 = k
    · simpa [groupInsert, keysOf, h, List.nodup_cons] using hnd
    · simp only [groupInsert, if_neg h, keysOf, List.map_cons, List.nodup_cons]
      refine ⟨fun hmem => ?_, ih hnd.2⟩
      rcases (mem_keysOf_groupInsert rest k p.1 s).mp hmem with hh | hh
      · exact hnd.1 hh
      · exact h hh

theorem mem_keysOf_buildGrouped (d : List (String × String)) (uById : List (String × User))
    (rById : List (Nat × Roster)) (es : List MatchupEntry)
    (g : List (Nat × List ScoreBoardEntry)) (a : Nat) :
    a ∈ keysOf (buildGrouped d uById rById g es) ↔
      a ∈ keysOf g ∨ a ∈ es.map (fun e => e.matchup_id) := by
  induction es generalizing g with
  | nil => simp [buildGrouped]
  | cons e rest ih =>
    simp only [buildGrouped]
    rw [ih]
    simp only [mem_keysOf_groupInsert, List.map_cons, List.mem_cons]
    tauto

theorem nodup_keysOf_buildGrouped (d : List (String × String)) (uById : List (String × User))
    (rById : List (Nat × Roster)) (es : List MatchupEntry)
    (g : List (Nat × List ScoreBoardEntry)) (hnd : (keysOf g).Nodup) :
    (keysOf (buildGrouped d uById rById g es)).Nodup := by
  induction es generalizing g with
  | nil => exact hnd
  | cons e rest ih => exact ih _ (nodup_keysOf_groupInsert g e.matchup_id _ hnd)

theorem entries_of_buildScoreboard (d : List (String × String)) (users : List User)
    (rosters : List Roster) (es : List MatchupEntry) (k : Nat) :
    (objGet (buildGrouped d (usersById users) (rostersById rosters) [] es) k).getD [] =
      groupContent d (usersById users) (rostersById rosters) es k := by
  rw [objGet_buildGrouped]
  exact optAppend_none_getD _

theorem matchup_mem_buildScoreboard (d : List (String × String)) (users : List User)
    (rosters : List Roster) (es : List MatchupEntry) (week : Int) (k : Nat)
    (hk : k ∈ es.map (fun e => e.matchup_id)) :
    ({ matchup_id := k, week := week,
       entries := groupContent d (usersById users) (rostersById rosters) es k } : Matchup) ∈
      buildScoreboard d users rosters es week := by
  have hkeys : k ∈ keysOf (buildGrouped d (usersById users) (rostersById rosters) [] es) :=
    (mem_keysOf_buildGrouped d _ _ es [] k).mpr (Or.inr hk)
  have hsort :
      k ∈ List.insertionSort (fun a b => a ≤ b)
        (keysOf (buildGrouped d (usersById users) (rostersById rosters) [] es)) :=
    (List.perm_insertionSort _ _).mem_iff.mpr hkeys
  have hform := List.mem_map_of_mem
    (fun k : Nat => Matchup.mk k week
      ((objGet (buildGrouped d (usersById users) (rostersById rosters) [] es) k).getD []))
    hsort
  simp only [entries_of_buildScoreboard d users rosters es k] at hform
  exact hform

theorem mkScoreBoardEntry_mem_groupContent (d : List (String × String))
    (uById : List (String × User)) (rById : List (Nat × Roster))
    (es : List MatchupEntry) (e : MatchupEntry) (he : e ∈ es) :
    mkScoreBoardEntry d uById rById e ∈ groupContent d uById rById es e.matchup_id := by
  refine List.mem_map_of_mem _ ?_
  simp [List.mem_filter, he]

theorem lastWith_append {β κ : Type} [DecidableEq κ] (key : β → κ) (k : κ) (l1 l2 : List β) :
    lastWith key k (l1 ++ l2) =
      match lastWith key k l2 with
      | some y => some y
      | none => lastWith key k l1 := by
  induction l1 with
  | nil => cases h : lastWith key k l2 <;> simp [lastWith, h]
  | cons x l1 ih =>
    show (match lastWith key k (l1 ++ l2) with
      | some y => some y
      | none => if key x = k then some x else none) = _
    rw [ih]
    cases h2 : lastWith key k l2 with
    | some y => rfl
    | none => rfl

theorem sorted_lt_of_le_nodup (l : List Nat)
    (hle : List.Sorted (fun a b => a ≤ b) l) (hnd : l.Nodup) :
    List.Sorted (fun a b => a < b) l := by
  induction l with
  | nil => simp
  | cons a rest ih =>
    rw [List.sorted_cons] at hle ⊢
    rw [List.nodup_cons] at hnd
    refine ⟨fun b hb => lt_of_le_of_ne (hle.1 b hb) (fun hab => ?_), ih hle.2 hnd.2⟩
    exact hnd.1 (hab ▸ hb)

--------------------------------------------------------------------------------
-- Claims about the player directory
--------------------------------------------------------------------------------

/-- C9: when the player snapshot contains two or more records sharing the
same full name, the name-to-identifier mapping built at load time holds
the identifier of whichever record was processed last in the snapshot's
iteration order. The snapshot is split as pre ++ (id, p) :: post, where
(id, p) is the last record whose full name is the duplicated name. -/
theorem c9_name_to_id_last_write_wins (pre post : List (String × Player)) (id : String)
    (p : Player) (name : String) (hp : p.full_name = name)
    (hpost : ∀ kp ∈ post, kp.2.full_name ≠ name)
    (_hdup : 2 ≤ ((pre ++ (id, p) :: post).filter (fun kp => kp.2.full_name = name)).length) :
    objGet (buildNameToId (pre ++ (id, p) :: post)) name = some id := by
  rw [objGet_buildNameToId, lastWith_append]
  have hlast : lastWith (fun kp : String × Player => kp.2.full_name) name ((id, p) :: post)
      = some (id, p) := by
    have hpost2 : lastWith (fun kp : String × Player => kp.2.full_name) name post = none :=
      lastWith_eq_none _ _ _ hpost
    simp [lastWith, hpost2, hp]
  rw [hlast]
  rfl

/-- C9 witness: a snapshot with two records named Bo resolves Bo to the
identifier of the second (last-processed) record. -/
theorem c9_witness :
    objGet (buildNameToId [("1", Player.mk "Active" "Bo" "KC"),
      ("2", Player.mk "Active" "Bo" "SF")]) "Bo" = some "2" :=
  c9_name_to_id_last_write_wins [("1", Player.mk "Active" "Bo" "KC")] [] "2"
    (Player.mk "Active" "Bo" "SF") "Bo" rfl (by simp) (by decide)

/-- C4: a name absent from the snapshot makes get_player_id fail with the
not-found error, and an identifier absent from the snapshot makes
get_player_name fail with the not-found error. -/
theorem c4_not_found (snap : List (String × Player)) (name id : String)
    (hname : name ∉ snap.map (fun kp => kp.2.full_name))
    (hid : id ∉ snap.map Prod.fst) :
    get_player_id snap name = .error ("Could not find player " ++ name) ∧
    get_player_name snap id = .error ("Could not find player with id " ++ id) := by
  have h1 : lastWith (fun kp : String × Player => kp.2.full_name) name snap = none := by
    refine lastWith_eq_none _ _ _ (fun x hx hk => hname ?_)
    exact hk ▸ List.mem_map_of_mem _ hx
  have h2 : lastWith (Prod.fst : String × Player → String) id snap = none := by
    refine lastWith_eq_none _ _ _ (fun x hx hk => hid ?_)
    exact hk ▸ List.mem_map_of_mem _ hx
  constructor
  · simp [get_player_id, objGet_buildNameToId, h1]
  · simp [get_player_name, objGet_buildIdToName, h2]

/-- C4 witness: with a one-record snapshot, an unknown name and an
unknown identifier both produce the not-found errors. -/
theorem c4_witness :
    get_player_id [("123", Player.mk "Active" "John" "KC")] "Bo" =
      .error "Could not find player Bo" ∧
    get_player_name [("123", Player.mk "Active" "John" "KC")] "999" =
      .error "Could not find player with id 999" :=
  c4_not_found [("123", Player.mk "Active" "John" "KC")] "Bo" "999" (by decide) (by decide)

/-- C3 (amended): for a full name that maps to a unique identifier in the
snapshot, resolving the name and then resolving the identifier back
returns the original name, provided the identifier and the name are
nonempty strings; the handlers treat the empty string as missing because
it is falsy in JavaScript. -/
theorem c3_roundtrip_unique_name (snap : List (String × Player)) (name pid : String)
    (p : Player) (hkeys : (snap.map Prod.fst).Nodup)
    (hmem : (pid, p) ∈ snap) (hname : p.full_name = name)
    (huniq : ∀ kp ∈ snap, kp.2.full_name = name → kp = (pid, p))
    (hpid : pid ≠ "") (hnm : name ≠ "") :
    get_player_id snap name = .ok pid ∧ get_player_name snap pid = .ok name := by
  have h1 : lastWith (fun kp : String × Player => kp.2.full_name) name snap = some (pid, p) :=
    lastWith_unique _ _ _ _ hmem hname huniq
  have h2 : lastWith (Prod.fst : String × Player → String) pid snap = some (pid, p) := by
    refine lastWith_unique _ _ _ _ hmem rfl (fun y hy hk => ?_)
    exact List.inj_on_of_nodup_map hkeys hy hmem hk
  constructor
  · simp only [get_player_id, objGet_buildNameToId, h1, Option.map_some']
    rw [if_neg hpid]
  · simp only [get_player_name, objGet_buildIdToName, h2, Option.map_some']
    rw [hname, if_neg hnm]

/-- C3 witness: a snapshot where Jane Doe uniquely maps to identifier 77
round-trips: name to id and id back to name. -/
theorem c3_witness :
    get_player_id [("77", Player.mk "Active" "Jane Doe" "KC")] "Jane Doe" = .ok "77" ∧
    get_player_name [("77", Player.mk "Active" "Jane Doe" "KC")] "77" = .ok "Jane Doe" :=
  c3_roundtrip_unique_name [("77", Player.mk "Active" "Jane Doe" "KC")] "Jane Doe" "77"
    (Player.mk "Active" "Jane Doe" "KC") (by decide) (by decide) rfl (by decide)
    (by decide) (by decide)

/-- C3 counterexample: the round trip fails on the code when the unique
identifier is the empty string (get_player_id rejects the falsy id), and
when the full name is the empty string (get_player_name rejects the falsy
name), even though the claim's premise of a uniquely mapped name holds. -/
theorem c3_counterexample :
    (([("", Player.mk "Active" "John Smith" "KC")].map
      (Prod.fst : String × Player → String)).Nodup ∧
     (∀ kp ∈ [("", Player.mk "Active" "John Smith" "KC")],
        kp.2.full_name = "John Smith" → kp = ("", Player.mk "Active" "John Smith" "KC")) ∧
     get_player_id [("", Player.mk "Active" "John Smith" "KC")] "John Smith" =
       .error "Could not find player John Smith") ∧
    (get_player_id [("77", Player.mk "Active" "" "KC")] "" = .ok "77" ∧
     get_player_name [("77", Player.mk "Active" "" "KC")] "77" =
       .error "Could not find player with id 77") := by
  refine ⟨⟨by decide, by decide, ?_⟩, ?_, ?_⟩ <;> rfl

--------------------------------------------------------------------------------
-- Claims about the scoreboard aggregation
--------------------------------------------------------------------------------

theorem map_matchup_id_buildScoreboard (d : List (String × String)) (users : List User)
    (rosters : List Roster) (es : List MatchupEntry) (week : Int) :
    (buildScoreboard d users rosters es week).map (fun m => m.matchup_id) =
      List.insertionSort (fun a b => a ≤ b)
        (keysOf (buildGrouped d (usersById users) (rostersById rosters) [] es)) := by
  show (List.map (fun k : Nat => Matchup.mk k week
      ((objGet (buildGrouped d (usersById users) (rostersById rosters) [] es) k).getD []))
      (List.insertionSort (fun a b => a ≤ b)
        (keysOf (buildGrouped d (usersById users) (rostersById rosters) [] es)))).map
      (fun m => m.matchup_id) = _
  rw [List.map_map]
  show List.map (fun k : Nat => k) _ = _
  exact List.map_id' _

/-- C1 (amended): the aggregation emits its Matchup groups in ascending
numeric order of matchup identifier — the grouping object is a plain
JavaScript object whose array-index keys Object.keys enumerates in
ascending numeric order, not in first-seen order — and the emitted
identifiers are exactly the matchup identifiers occurring in the upstream
entry list. -/
theorem c1_matchups_ascending_order (d : List (String × String)) (users : List User)
    (rosters : List Roster) (es : List MatchupEntry) (week : Int) :
    List.Sorted (fun a b => a < b)
      ((buildScoreboard d users rosters es week).map (fun m => m.matchup_id)) ∧
    ∀ k, k ∈ (buildScoreboard d users rosters es week).map (fun m => m.matchup_id) ↔
      k ∈ es.map (fun e => e.matchup_id) := by
  constructor
  · rw [map_matchup_id_buildScoreboard]
    refine sorted_lt_of_le_nodup _ (List.sorted_insertionSort _ _) ?_
    exact (List.perm_insertionSort _ _).nodup_iff.mpr
      (nodup_keysOf_buildGrouped d _ _ es [] (by simp [keysOf]))
  · intro k
    rw [map_matchup_id_buildScoreboard, (List.perm_insertionSort _ _).mem_iff,
      mem_keysOf_buildGrouped]
    simp [keysOf]

/-- C1 counterexample: with upstream entries carrying matchup ids 7 then
3, the first-seen order of distinct ids is 7, 3, but the aggregation
emits the matchups in ascending order 3, 7. -/
theorem c1_counterexample :
    (buildScoreboard [] [] []
      [MatchupEntry.mk 1 [] [] 0 [] 7, MatchupEntry.mk 2 [] [] 0 [] 3] 1).map
      (fun m => m.matchup_id) = [3, 7] ∧
    ([MatchupEntry.mk 1 [] [] 0 [] 7, MatchupEntry.mk 2 [] [] 0 [] 3].map
      (fun e => e.matchup_id) = [7, 3]) ∧
    ([3, 7] : List Nat) ≠ [7, 3] := by
  refine ⟨by decide, rfl, by decide⟩

/-- C6: every matchup entry contributes to the emitted scoreboard (inside
the group of its matchup id) a score-board entry whose players_points is
the upstream per-player point list re-keyed by resolved player name (raw
identifier when unresolved), and whose starters_points is the re-keyed
restriction of that list to the identifiers contained in starters, the
filter being applied to the original identifiers before translation. -/
theorem c6_points_maps (d : List (String × String)) (users : List User)
    (rosters : List Roster) (es : List MatchupEntry) (week : Int) (e : MatchupEntry)
    (he : e ∈ es) :
    ({ matchup_id := e.matchup_id, week := week,
       entries := groupContent d (usersById users) (rostersById rosters) es e.matchup_id } :
      Matchup) ∈ buildScoreboard d users rosters es week ∧
    mkScoreBoardEntry d (usersById users) (rostersById rosters) e ∈
      groupContent d (usersById users) (rostersById rosters) es e.matchup_id ∧
    (mkScoreBoardEntry d (usersById users) (rostersById rosters) e).players_points =
      fromEntries (e.players_points.map (fun kv => (resolveOr d kv.1, kv.2))) ∧
    (mkScoreBoardEntry d (usersById users) (rostersById rosters) e).starters_points =
      fromEntries ((e.players_points.filter (fun kv => e.starters.contains kv.1)).map
        (fun kv => (resolveOr d kv.1, kv.2))) :=
  ⟨matchup_mem_buildScoreboard d users rosters es week e.matchup_id
      (List.mem_map_of_mem _ he),
    mkScoreBoardEntry_mem_groupContent d _ _ es e he, rfl, rfl⟩

/-- C6 witness: a one-entry league with a starter p1 and a bench player
p2; the entry appears in the output, players_points is keyed by the
resolved names Alpha and the raw id p2, and starters_points keeps only
the starter. -/
theorem c6_witness :
    ({ matchup_id := 7, week := 2,
       entries := groupContent [("p1", "Alpha")]
         (usersById [User.mk "u1" "user1" "Alice" (UserMetadata.mk "TeamA")])
         (rostersById [Roster.mk 1 "u1" ["p1", "p2"] ["p1"]])
         [MatchupEntry.mk 1 ["p1"] ["p1", "p2"] 30 [("p1", 20), ("p2", 10)] 7] 7 } :
      Matchup) ∈ buildScoreboard [("p1", "Alpha")]
        [User.mk "u1" "user1" "Alice" (UserMetadata.mk "TeamA")]
        [Roster.mk 1 "u1" ["p1", "p2"] ["p1"]]
        [MatchupEntry.mk 1 ["p1"] ["p1", "p2"] 30 [("p1", 20), ("p2", 10)] 7] 2 ∧
    mkScoreBoardEntry [("p1", "Alpha")]
      (usersById [User.mk "u1" "user1" "Alice" (UserMetadata.mk "TeamA")])
      (rostersById [Roster.mk 1 "u1" ["p1", "p2"] ["p1"]])
      (MatchupEntry.mk 1 ["p1"] ["p1", "p2"] 30 [("p1", 20), ("p2", 10)] 7) ∈
      groupContent [("p1", "Alpha")]
        (usersById [User.mk "u1" "user1" "Alice" (UserMetadata.mk "TeamA")])
        (rostersById [Roster.mk 1 "u1" ["p1", "p2"] ["p1"]])
        [MatchupEntry.mk 1 ["p1"] ["p1", "p2"] 30 [("p1", 20), ("p2", 10)] 7] 7 ∧
    (mkScoreBoardEntry [("p1", "Alpha")]
      (usersById [User.mk "u1" "user1" "Alice" (UserMetadata.mk "TeamA")])
      (rostersById [Roster.mk 1 "u1" ["p1", "p2"] ["p1"]])
      (MatchupEntry.mk 1 ["p1"] ["p1", "p2"] 30 [("p1", 20), ("p2", 10)] 7)).players_points =
      fromEntries ([("p1", (20 : Int)), ("p2", 10)].map
        (fun kv => (resolveOr [("p1", "Alpha")] kv.1, kv.2))) ∧
    (mkScoreBoardEntry [("p1", "Alpha")]
      (usersById [User.mk "u1" "user1" "Alice" (UserMetadata.mk "TeamA")])
      (rostersById [Roster.mk 1 "u1" ["p1", "p2"] ["p1"]])
      (MatchupEntry.mk 1 ["p1"] ["p1", "p2"] 30 [("p1", 20), ("p2", 10)] 7)).starters_points =
      fromEntries (([("p1", (20 : Int)), ("p2", 10)].filter
        (fun kv => ["p1"].contains kv.1)).map
        (fun kv => (resolveOr [("p1", "Alpha")] kv.1, kv.2))) :=
  c6_points_maps [("p1", "Alpha")] [User.mk "u1" "user1" "Alice" (UserMetadata.mk "TeamA")]
    [Roster.mk 1 "u1" ["p1", "p2"] ["p1"]]
    [MatchupEntry.mk 1 ["p1"] ["p1", "p2"] 30 [("p1", 20), ("p2", 10)] 7] 2
    (MatchupEntry.mk 1 ["p1"] ["p1", "p2"] 30 [("p1", 20), ("p2", 10)] 7) (by decide)

/-- C5 (amended): a matchup entry whose roster is missing yields a
score-board entry with empty user_name and team_name provided no user
record carries the empty string as its user identifier (the code falls
back to looking up the empty-string key); an entry whose roster exists
but whose owner has no matching user yields empty names unconditionally;
and the aggregation emits a score-board entry for every matchup entry. -/
theorem c5_missing_metadata_degrades :
    (∀ (d : List (String × String)) (users : List User) (rosters : List Roster)
      (e : MatchupEntry), (∀ u ∈ users, u.user_id ≠ "") →
      objGet (rostersById rosters) e.roster_id = none →
      (mkScoreBoardEntry d (usersById users) (rostersById rosters) e).user_name = "" ∧
      (mkScoreBoardEntry d (usersById users) (rostersById rosters) e).team_name = "") ∧
    (∀ (d : List (String × String)) (users : List User) (rosters : List Roster)
      (e : MatchupEntry) (r : Roster),
      objGet (rostersById rosters) e.roster_id = some r →
      objGet (usersById users) r.owner_id = none →
      (mkScoreBoardEntry d (usersById users) (rostersById rosters) e).user_name = "" ∧
      (mkScoreBoardEntry d (usersById users) (rostersById rosters) e).team_name = "") ∧
    (∀ (d : List (String × String)) (users : List User) (rosters : List Roster)
      (es : List MatchupEntry) (week : Int) (e : MatchupEntry), e ∈ es →
      mkScoreBoardEntry d (usersById users) (rostersById rosters) e ∈
        groupContent d (usersById users) (rostersById rosters) es e.matchup_id ∧
      ({ matchup_id := e.matchup_id, week := week,
         entries := groupContent d (usersById users) (rostersById rosters) es e.matchup_id } :
        Matchup) ∈ buildScoreboard d users rosters es week) := by
  refine ⟨?_, ?_, ?_⟩
  · intro d users rosters e hnoempty hro
    have hu : objGet (usersById users) "" = none := by
      rw [objGet_usersById, lastWith_eq_none _ _ _ (fun u hu hk => hnoempty u hu hk)]
      rfl
    constructor <;> simp [mkScoreBoardEntry, hro, hu]
  · intro d users rosters e r hro hu
    constructor <;> simp [mkScoreBoardEntry, hro, hu]
  · intro d users rosters es week e he
    exact ⟨mkScoreBoardEntry_mem_groupContent d _ _ es e he,
      matchup_mem_buildScoreboard d users rosters es week e.matchup_id
        (List.mem_map_of_mem _ he)⟩

/-- C5 witness: a missing roster (with no empty-id user) and a missing
owner both produce empty user_name and team_name, while the entry still
appears inside the emitted scoreboard. -/
theorem c5_witness :
    ((mkScoreBoardEntry [] (usersById [User.mk "u1" "x" "Alice" (UserMetadata.mk "T")])
      (rostersById []) (MatchupEntry.mk 5 [] [] 0 [] 7)).user_name = "" ∧
     (mkScoreBoardEntry [] (usersById [User.mk "u1" "x" "Alice" (UserMetadata.mk "T")])
      (rostersById []) (MatchupEntry.mk 5 [] [] 0 [] 7)).team_name = "") ∧
    ((mkScoreBoardEntry [] (usersById []) (rostersById [Roster.mk 5 "ghost" [] []])
      (MatchupEntry.mk 5 [] [] 0 [] 7)).user_name = "" ∧
     (mkScoreBoardEntry [] (usersById []) (rostersById [Roster.mk 5 "ghost" [] []])
      (MatchupEntry.mk 5 [] [] 0 [] 7)).team_name = "") ∧
    (mkScoreBoardEntry [] (usersById [User.mk "u1" "x" "Alice" (UserMetadata.mk "T")])
      (rostersById []) (MatchupEntry.mk 5 [] [] 0 [] 7) ∈
      groupContent [] (usersById [User.mk "u1" "x" "Alice" (UserMetadata.mk "T")])
        (rostersById []) [MatchupEntry.mk 5 [] [] 0 [] 7] 7 ∧
     ({ matchup_id := 7, week := 1,
        entries := groupContent [] (usersById [User.mk "u1" "x" "Alice" (UserMetadata.mk "T")])
          (rostersById []) [MatchupEntry.mk 5 [] [] 0 [] 7] 7 } : Matchup) ∈
       buildScoreboard [] [User.mk "u1" "x" "Alice" (UserMetadata.mk "T")] []
         [MatchupEntry.mk 5 [] [] 0 [] 7] 1) :=
  ⟨c5_missing_metadata_degrades.1 [] [User.mk "u1" "x" "Alice" (UserMetadata.mk "T")] []
      (MatchupEntry.mk 5 [] [] 0 [] 7) (by decide) rfl,
   c5_missing_metadata_degrades.2.1 [] [] [Roster.mk 5 "ghost" [] []]
      (MatchupEntry.mk 5 [] [] 0 [] 7) (Roster.mk 5 "ghost" [] []) rfl rfl,
   c5_missing_metadata_degrades.2.2 [] [User.mk "u1" "x" "Alice" (UserMetadata.mk "T")] []
      [MatchupEntry.mk 5 [] [] 0 [] 7] 1 (MatchupEntry.mk 5 [] [] 0 [] 7) (by decide)⟩

/-- C5 counterexample: when the users list contains a user whose user_id
is the empty string, a matchup entry with a missing roster picks up that
user's display name instead of the empty string, because the code looks
up usersById with the empty-string fallback key. -/
theorem c5_counterexample :
    objGet (rostersById []) (1 : Nat) = none ∧
    (mkScoreBoardEntry [] (usersById [User.mk "" "g" "Ghost" (UserMetadata.mk "GT")])
      (rostersById []) (MatchupEntry.mk 1 [] [] 0 [] 7)).user_name = "Ghost" ∧
    ("Ghost" : String) ≠ "" :=
  ⟨rfl, rfl, by decide⟩

/-- C10: looking up a resolved name in a produced players_points (and
starters_points) yields the points of the last upstream pair whose
identifier resolves to that name, so two identifiers colliding on one
name keep only the later identifier's points; concretely, a directory
mapping ids 1 and 2 both to Bo collapses a two-entry upstream point map
to the single pair (Bo, 20), strictly fewer entries than upstream. -/
theorem c10_name_collision_last_wins (d : List (String × String))
    (uById : List (String × User)) (rById : List (Nat × Roster)) (e : MatchupEntry)
    (n : String) :
    (objGet (mkScoreBoardEntry d uById rById e).players_points n =
      (lastWith Prod.fst n (e.players_points.map
        (fun kv => (resolveOr d kv.1, kv.2)))).map Prod.snd) ∧
    (objGet (mkScoreBoardEntry d uById rById e).starters_points n =
      (lastWith Prod.fst n ((e.players_points.filter
        (fun kv => e.starters.contains kv.1)).map
        (fun kv => (resolveOr d kv.1, kv.2)))).map Prod.snd) ∧
    (mkScoreBoardEntry [("1", "Bo"), ("2", "Bo")] [] []
      (MatchupEntry.mk 1 [] [] 0 [("1", 10), ("2", 20)] 7)).players_points = [("Bo", 20)] ∧
    (MatchupEntry.mk 1 [] [] (0 : Int) [("1", (10 : Int)), ("2", 20)] 7).players_points.length
      = 2 :=
  ⟨objGet_fromEntries _ _, objGet_fromEntries _ _, by decide, rfl⟩

--------------------------------------------------------------------------------
-- Claims about callApi and the fetch pipeline
--------------------------------------------------------------------------------

theorem callApi_miss_error {α : Type} (resp : HttpResp α) (now : Nat)
    (h : resp.ok = false) :
    callApi (none : Option (CacheEntry α)) resp now =
      .error (httpErrMsg resp.status resp.statusText) := by
  simp [callApi, h]

theorem callApi_ok_shape {α : Type} (cached : Option (CacheEntry α)) (resp : HttpResp α)
    (now : Nat) (h : cached.isSome = true ∨ resp.ok = true) :
    ∃ x, callApi cached resp now = .ok x := by
  rcases cached with _ | c
  · rcases h with h | h
    · simp at h
    · exact ⟨(resp.body, some (CacheEntry.mk resp.body now)), by simp [callApi, h]⟩
  · exact ⟨(c.data, none), rfl⟩

theorem get_matchup_scoreboard_eq (idToName : List (String × String))
    (cachedUsers : Option (CacheEntry (List User))) (respUsers : HttpResp (List User))
    (cachedRosters : Option (CacheEntry (List Roster))) (respRosters : HttpResp (List Roster))
    (cachedMatchups : Option (CacheEntry (List MatchupEntry)))
    (respMatchups : HttpResp (List MatchupEntry)) (week : Int) (now : Nat) :
    get_matchup_scoreboard idToName cachedUsers respUsers cachedRosters respRosters
      cachedMatchups respMatchups week now =
      match callApi cachedUsers respUsers now with
      | .error e => .error e
      | .ok u =>
        match callApi cachedRosters respRosters now with
        | .error e => .error e
        | .ok r =>
          match callApi cachedMatchups respMatchups now with
          | .error e => .error e
          | .ok m => .ok (buildScoreboard idToName u.1 r.1 m.1 week) := by
  unfold get_matchup_scoreboard
  cases hcu : callApi cachedUsers respUsers now with
  | error e => rfl
  | ok u =>
    cases hcr : callApi cachedRosters respRosters now with
    | error e => rfl
    | ok r =>
      cases hcm : callApi cachedMatchups respMatchups now with
      | error e => rfl
      | ok m => rfl

/-- C8: if any of the three constituent fetches of get_matchup_scoreboard
fails — in particular an uncached users fetch answered with a non-2xx
status — the handler fails with the underlying callApi error and no
scoreboard, partial or otherwise, is produced. -/
theorem c8_upstream_failure_propagates (idToName : List (String × String))
    (cachedUsers : Option (CacheEntry (List User))) (respUsers : HttpResp (List User))
    (cachedRosters : Option (CacheEntry (List Roster))) (respRosters : HttpResp (List Roster))
    (cachedMatchups : Option (CacheEntry (List MatchupEntry)))
    (respMatchups : HttpResp (List MatchupEntry)) (week : Int) (now : Nat) :
    (cachedUsers = none → respUsers.ok = false →
      get_matchup_scoreboard idToName cachedUsers respUsers cachedRosters respRosters
        cachedMatchups respMatchups week now =
        .error (httpErrMsg respUsers.status respUsers.statusText)) ∧
    ((cachedUsers.isSome = true ∨ respUsers.ok = true) → cachedRosters = none →
      respRosters.ok = false →
      get_matchup_scoreboard idToName cachedUsers respUsers cachedRosters respRosters
        cachedMatchups respMatchups week now =
        .error (httpErrMsg respRosters.status respRosters.statusText)) ∧
    ((cachedUsers.isSome = true ∨ respUsers.ok = true) →
      (cachedRosters.isSome = true ∨ respRosters.ok = true) → cachedMatchups = none →
      respMatchups.ok = false →
      get_matchup_scoreboard idToName cachedUsers respUsers cachedRosters respRosters
        cachedMatchups respMatchups week now =
        .error (httpErrMsg respMatchups.status respMatchups.statusText)) := by
  refine ⟨?_, ?_, ?_⟩
  · intro h1 h2
    subst h1
    rw [get_matchup_scoreboard_eq, callApi_miss_error _ _ h2]
  · intro hu h1 h2
    subst h1
    obtain ⟨u, hcu⟩ := callApi_ok_shape _ _ now hu
    rw [get_matchup_scoreboard_eq, hcu, callApi_miss_error _ _ h2]
  · intro hu hr h1 h2
    subst h1
    obtain ⟨u, hcu⟩ := callApi_ok_shape _ _ now hu
    obtain ⟨r, hcr⟩ := callApi_ok_shape _ _ now hr
    rw [get_matchup_scoreboard_eq, hcu, hcr, callApi_miss_error _ _ h2]

/-- C8 witness: an uncached users fetch answered 500 makes the handler
fail with the callApi error for that status, with rosters and matchups
responses available and healthy. -/
theorem c8_witness :
    get_matchup_scoreboard [] none (HttpResp.mk false 500 "Internal Server Error" [])
      none (HttpResp.mk true 200 "OK" []) none (HttpResp.mk true 200 "OK" []) 1 0 =
      .error (httpErrMsg 500 "Internal Server Error") :=
  (c8_upstream_failure_propagates [] none
    (HttpResp.mk false 500 "Internal Server Error" []) none (HttpResp.mk true 200 "OK" [])
    none (HttpResp.mk true 200 "OK" []) 1 0).1 rfl rfl

/-- C2: callApi performs its fetch with no RequestInit and hence no
timeout: the configured timeout is none, and such a fetch is still
waiting for a response no matter how late it arrives — in particular
10001 ms after the request, where the claimed 10-second bound would have
aborted it. -/
theorem c2_no_request_timeout :
    callApiRequestTimeoutMs = none ∧
    (∀ arrival : Nat, fetchWaits callApiRequestTimeoutMs arrival = true) ∧
    fetchWaits callApiRequestTimeoutMs 10001 = true ∧
    fetchWaits (some 10000) 10001 = false :=
  ⟨rfl, fun _ => rfl, rfl, by decide⟩

--------------------------------------------------------------------------------
-- Claims about the response cache
--------------------------------------------------------------------------------

theorem length_filter_lt {α : Type} (p : α → Bool) (l : List α) (x : α)
    (hx : x ∈ l) (hpx : p x = false) : (l.filter p).length < l.length := by
  induction l with
  | nil => simp at hx
  | cons a rest ih =>
    rcases List.mem_cons.mp hx with h | h
    · subst h
      rw [List.filter_cons, hpx]
      have hle := List.length_filter_le p rest
      simp
      omega
    · rw [List.filter_cons]
      have hlt := ih h
      cases hpa : p a <;> simp <;> omega

theorem length_lruGet_le {α : Type} (ttl : Nat) (st : List (LruEntry α)) (k : String)
    (now : Nat) : ((lruGet ttl st k now).2).length ≤ st.length := by
  unfold lruGet
  cases hf : st.find? (fun e => e.key = k) with
  | none => simp
  | some e =>
    have hmem := List.mem_of_find?_eq_some hf
    have hkey : e.key = k := by
      have := List.find?_some hf
      simpa using this
    have hfl : (st.filter (fun x => x.key ≠ k)).length < st.length := by
      refine length_filter_lt _ st e hmem ?_
      simp [hkey]
    by_cases hfresh : now - e.insertedAt < ttl
    · simp only [if_pos hfresh, List.length_append, List.length_cons, List.length_nil]
      omega
    · simp only [if_neg hfresh]
      omega

theorem length_lruSet_le {α : Type} (max : Nat) (hmax : 0 < max) (st : List (LruEntry α))
    (k : String) (v : α) (now : Nat) : (lruSet max st k v now).length ≤ max := by
  simp only [lruSet, List.length_append, List.length_drop, List.length_cons,
    List.length_nil]
  omega

theorem runOps_length_le {α : Type} (max ttl : Nat) (hmax : 0 < max)
    (ops : List (LruOp α)) : (runOps max ttl ops).length ≤ max := by
  suffices h : ∀ st : List (LruEntry α), st.length ≤ max →
      (ops.foldl (lruStep max ttl) st).length ≤ max by
    exact h [] (by simp)
  induction ops with
  | nil => intro st h; simpa using h
  | cons op rest ih =>
    intro st hst
    simp only [List.foldl_cons]
    refine ih _ ?_
    cases op with
    | get k now => exact le_trans (length_lruGet_le ttl st k now) hst
    | set k v now => exact length_lruSet_le max hmax st k v now

theorem lruSet_evicts {α : Type} (max : Nat) (st : List (LruEntry α)) (k : String) (v : α)
    (now : Nat) (hfull : st.length = max) (hnew : ∀ e ∈ st, e.key ≠ k) :
    lruSet max st k v now = st.drop 1 ++ [LruEntry.mk k v now] := by
  have hfilter : st.filter (fun x => x.key ≠ k) = st := by
    rw [List.filter_eq_self]
    intro a ha
    simpa using hnew a ha
  simp only [lruSet, hfilter, hfull]
  have h1 : max + 1 - max = 1 := by omega
  rw [h1]

/-- C7: starting from an empty cache, no sequence of get and set
operations ever leaves more than the configured maximum of live entries
in the cache, and a set of a fresh key on a cache exactly at capacity
drops the least-recently-used entry (the front of the recency order) and
appends the new entry as most recently used. Modelled from the spec's
ResponseCache contract, with the reference maximum 1000 as a witness. -/
theorem c7_cache_capacity_lru_eviction (α : Type) (max ttl : Nat) (ops : List (LruOp α))
    (hmax : 0 < max) :
    (runOps max ttl ops).length ≤ max ∧
    ∀ (st : List (LruEntry α)) (k : String) (v : α) (now : Nat), st.length = max →
      (∀ e ∈ st, e.key ≠ k) →
      lruSet max st k v now = st.drop 1 ++ [LruEntry.mk k v now] :=
  ⟨runOps_length_le max ttl hmax ops,
    fun st k v now hfull hnew => lruSet_evicts max st k v now hfull hnew⟩

/-- C7 witness: a concrete operation sequence against the reference
configuration (max 1000, 30-second ttl) keeps the cache within bounds. -/
theorem c7_witness :
    (runOps 1000 30000
      [LruOp.set "a" (1 : Nat) 0, LruOp.set "b" 2 5, LruOp.get "a" 10]).length ≤ 1000 :=
  (c7_cache_capacity_lru_eviction Nat 1000 30000
    [LruOp.set "a" 1 0, LruOp.set "b" 2 5, LruOp.get "a" 10] (by decide)).1
